import Mathlib

/-!
Shallow embedding of `joueuses_dashboard.py`, a single linear Streamlit
script: load a spreadsheet, validate columns, render statistical charts.

Modelling conventions:
* A dataframe is a `Table`: a list of column names plus rows given as
  association lists from column name to `Cell`.
* A raw `Date` cell is `Cell.date o`, where `o : Option Int` is the outcome
  of datetime parsing (`none` = unparseable, coerced to `NaT` by
  `pd.to_datetime(..., errors=coerce)`); a cell of any other shape in the
  Date column is treated as unparseable.
* Floating-point numbers are modelled as exact rationals; real-valued
  results (Pearson r) live in `ℝ`, with `none` standing for `NaN`.
* `st.error` followed by `st.stop` is modelled as returning
  `Except.error`: the script halts and renders nothing further.
-/

abbrev ColName := String

inductive Cell where
  | str : String → Cell
  | num : Rat → Cell
  | date : Option Int → Cell
deriving DecidableEq, Repr

abbrev Row := List (ColName × Cell)

structure Table where
  cols : List ColName
  rows : List Row
deriving DecidableEq, Repr

/-- Datetime coercion of one cell (`pd.to_datetime(value, errors=coerce)`):
a date cell yields its embedded parse outcome, anything else `NaT`. -/
def coerceDate : Cell → Option Int
  | .date o => o
  | _ => none

/-- The (parsed) Date value of a row, `none` meaning `NaT`/absent. -/
def dateVal (r : Row) : Option Int := (r.lookup "Date").bind coerceDate

/-- The Joueuse (player) value of a row, as used for grouping and sorting. -/
def joueuseKey (r : Row) : String :=
  match r.lookup "Joueuse" with
  | some (.str s) => s
  | _ => ""

/-- The Phase_Cycle value of a row, as used for grouping. -/
def phaseKey (r : Row) : String :=
  match r.lookup "Phase_Cycle" with
  | some (.str s) => s
  | _ => ""

/-- Numeric value of a row at a column (metric columns hold numbers). -/
def numVal (r : Row) (c : ColName) : Rat :=
  match r.lookup c with
  | some (.num q) => q
  | _ => 0

/-- Date sort key of a row (rows reaching the sort have a parsed Date). -/
def dateKey (r : Row) : Int := (dateVal r).getD 0

/-- `df[Date] = pd.to_datetime(df[Date], errors=coerce)` on one row:
replace the Date cell by its parse outcome. -/
def parseRow (r : Row) : Row :=
  r.map (fun p => if p.1 = "Date" then (p.1, Cell.date (coerceDate p.2)) else p)

/-- Datetime-coerce the Date column of the whole table. -/
def parseDates (t : Table) : Table :=
  { t with rows := t.rows.map parseRow }

/-- `df.dropna(subset=[Date])`: keep only rows whose Date parsed. -/
def dropnaDate (t : Table) : Table :=
  { t with rows := t.rows.filter (fun r => (dateVal r).isSome) }

/-- String strict order as applied by `sort_values` / `sorted` to string
keys: lexicographic on the character list. -/
def strLt (a b : String) : Prop := a.data < b.data

instance : DecidableRel strLt := fun a b => by
  unfold strLt
  infer_instance

/-- String non-strict order used for sorting keys. -/
def strLe (a b : String) : Prop := ¬ strLt b a

instance : DecidableRel strLe := fun a b => by
  unfold strLe
  infer_instance

lemma strLt_iff (a b : String) : strLt a b ↔ a < b := by
  rw [String.lt_iff_toList_lt]
  exact Iff.rfl

lemma strLe_iff (a b : String) : strLe a b ↔ a ≤ b :=
  (not_congr (strLt_iff b a)).trans not_lt

/-- The sort relation of `df.sort_values(by=[Joueuse, Date])`:
lexicographic on (Joueuse, Date). -/
def RowLe (a b : Row) : Prop :=
  strLt (joueuseKey a) (joueuseKey b) ∨
    (joueuseKey a = joueuseKey b ∧ dateKey a ≤ dateKey b)

instance : DecidableRel RowLe := fun a b => by
  unfold RowLe; infer_instance

/-- `df.sort_values(by=[Joueuse, Date]).reset_index(drop=True)`. -/
def sortRows (t : Table) : Table :=
  { t with rows := List.insertionSort RowLe t.rows }

/-- The `required_columns` list checked by `load_data`. -/
def required_columns : List ColName :=
  ["Joueuse", "Phase_Cycle", "Fer_mg", "Hydratation_L",
   "Sprints", "Distance_km", "Precision_Passes",
   "Humeur", "Crampes", "Fatigue"]

/-- The distinct `st.error`/`st.stop` exits of `load_data`. -/
inductive LoadError where
  | fileNotFound
  | missingColumn (c : ColName)
  | exception
deriving DecidableEq, Repr

/-- The outcome of `pd.read_excel`: file absent (`FileNotFoundError`),
unreadable (some other exception), or a table. -/
inductive FileInput where
  | missing
  | corrupt
  | table (t : Table)
deriving DecidableEq, Repr

/-- `load_data`: read the spreadsheet, coerce and clean Date, sort by
(Joueuse, Date), then check the required columns in order.  A missing
Joueuse column makes `sort_values` raise `KeyError`, caught by the generic
`except` handler.  Every `st.error`/`st.stop` path is an `Except.error`. -/
def load_data (input : FileInput) : Except LoadError Table :=
  match input with
  | .missing => .error .fileNotFound
  | .corrupt => .error .exception
  | .table df0 =>
    if "Date" ∈ df0.cols then
      let df1 := parseDates df0
      let df2 := dropnaDate df1
      if "Joueuse" ∈ df2.cols then
        let df3 := sortRows df2
        match required_columns.find? (fun c => !(df3.cols.contains c)) with
        | some c => .error (.missingColumn c)
        | none => .ok df3
      else .error .exception
    else .error (.missingColumn "Date")

/-- `display_figures_in_columns`: the grid layout.  The python loop
`for i in range(0, len(figures), cols_per_row)` slices
`figures[i:i+cols_per_row]` into one grid row per iteration. -/
def display_figures_in_columns {α : Type} (figures : List α) (cols_per_row : Nat) : List (List α) :=
  (List.range' 0 ((figures.length + cols_per_row - 1) / cols_per_row) cols_per_row).map
    (fun i => (figures.drop i).take cols_per_row)

/-- `pandas.Series.unique`: distinct values in order of first appearance
(later duplicates of an earlier value are removed). -/
def uniqueFirst {α : Type} [DecidableEq α] : List α → List α
  | [] => []
  | a :: l => a :: (uniqueFirst l).filter (fun x => decide (x ≠ a))

/-- The Joueuse column of the table, `df[Joueuse]`. -/
def joueuseCol (t : Table) : List String := t.rows.map joueuseKey

/-- The Phase_Cycle column of the table, `df[Phase_Cycle]`. -/
def phaseCol (t : Table) : List String := t.rows.map phaseKey

/-- The numeric column `df[c]` of the table. -/
def colVals (t : Table) (c : ColName) : List Rat :=
  t.rows.map (fun r => numVal r c)

/-- Section 3: `joueuses = sorted(df[Joueuse].unique())`. -/
def joueuses (t : Table) : List String :=
  List.insertionSort strLe (uniqueFirst (joueuseCol t))

/-- Sort relation of `sort_values(by=Date)`. -/
def DateLe (a b : Row) : Prop := dateKey a ≤ dateKey b

instance : DecidableRel DateLe := fun a b => by
  unfold DateLe; infer_instance

/-- Section 3: `df_j = df[df[Joueuse] == selected].sort_values(Date)`. -/
def df_j (t : Table) (j : String) : List Row :=
  List.insertionSort DateLe (t.rows.filter (fun r => decide (joueuseKey r = j)))

/-- Number of rows of the table with the given Joueuse and Phase_Cycle. -/
def countJoueusePhase (t : Table) (j p : String) : Nat :=
  (t.rows.filter (fun r => decide (joueuseKey r = j ∧ phaseKey r = p))).length

/-- Number of rows of the table with the given Joueuse. -/
def countJoueuse (t : Table) (j : String) : Nat :=
  (t.rows.filter (fun r => decide (joueuseKey r = j))).length

/-- Number of rows of the table with the given Phase_Cycle
(`len(df[df[Phase_Cycle] == phase])`). -/
def countPhase (t : Table) (p : String) : Nat :=
  (t.rows.filter (fun r => decide (phaseKey r = p))).length

/-- The sorted distinct Phase_Cycle values (the columns of the
`value_counts().unstack(fill_value=0)` table). -/
def phasesSorted (t : Table) : List String :=
  List.insertionSort strLe (uniqueFirst (phaseCol t))

/-- Section 1: `df.groupby(Joueuse)[Phase_Cycle].value_counts().unstack(fill_value=0)`:
one row per player (sorted group keys), one entry per observed phase, each
entry the count of the (player, phase) combination, absent combinations 0. -/
def phases_par_joueuse (t : Table) : List (String × List (String × Nat)) :=
  (joueuses t).map (fun j => (j, (phasesSorted t).map (fun p => (p, countJoueusePhase t j p))))

/-- Section 2.2: groups `df[df[Phase_Cycle] == phase]` over
`df[Phase_Cycle].unique()` that yield a heatmap (`len(df_phase) > 1`),
each figure identified by its group key. -/
def phase_figures (t : Table) : List String :=
  (uniqueFirst (phaseCol t)).filter (fun p => decide (1 < countPhase t p))

/-- Sort relation of `groupby([Joueuse, Phase_Cycle])` keys:
lexicographic on the pair. -/
def PairLe (a b : String × String) : Prop :=
  strLt a.1 b.1 ∨ (a.1 = b.1 ∧ strLe a.2 b.2)

instance : DecidableRel PairLe := fun a b => by
  unfold PairLe; infer_instance

/-- Group keys of `df.groupby([Joueuse, Phase_Cycle])`, in sorted order. -/
def jpPairs (t : Table) : List (String × String) :=
  List.insertionSort PairLe (uniqueFirst (t.rows.map (fun r => (joueuseKey r, phaseKey r))))

/-- Section 2.3: the (joueuse, phase) groups that yield a heatmap
(`len(group) > 1`), each figure identified by its group key. -/
def fig_list (t : Table) : List (String × String) :=
  (jpPairs t).filter (fun q => decide (1 < countJoueusePhase t q.1 q.2))

/-- Section 4.2: same grouping by phase as section 2.2 (the heatmap body
uses the symptom/performance columns instead). -/
def figs42 (t : Table) : List String :=
  (uniqueFirst (phaseCol t)).filter (fun p => decide (1 < countPhase t p))

/-- Section 4.3: same grouping by (joueuse, phase) as section 2.3. -/
def figs43 (t : Table) : List (String × String) :=
  (jpPairs t).filter (fun q => decide (1 < countJoueusePhase t q.1 q.2))

def variables_nutrition : List ColName := ["Fer_mg", "Hydratation_L"]

def variables_performance : List ColName := ["Sprints", "Distance_km", "Precision_Passes"]

def variables_symptomes : List ColName := ["Humeur", "Crampes", "Fatigue"]

/-- `Σ xᵢ yᵢ` over two columns (paired by row). -/
def dotL (xs ys : List Rat) : Rat := (List.zipWith (· * ·) xs ys).sum

/-- `n·Σxy − Σx·Σy`: the n²-scaled covariance accumulated by the pandas
Pearson kernel. -/
def covN (xs ys : List Rat) : Rat :=
  (xs.length : Rat) * dotL xs ys - xs.sum * ys.sum

/-- `n·Σx² − (Σx)²`: the n²-scaled variance. -/
def varN (xs : List Rat) : Rat := covN xs xs

/-- Pearson correlation of two equal-length columns as computed by
`DataFrame.corr()` (method pearson): `NaN` (here `none`) when either
column has zero variance, else the scaled covariance over the product of
scaled standard deviations. -/
noncomputable def pearson (xs ys : List Rat) : Option ℝ :=
  if varN xs = 0 ∨ varN ys = 0 then none
  else some ((covN xs ys : ℝ) / (Real.sqrt (varN xs) * Real.sqrt (varN ys)))

/-- Arithmetic mean of a column. -/
def meanL (xs : List Rat) : Rat := xs.sum / xs.length

/-- Mean-centered cross-product sum `Σ (xᵢ − x̄)(yᵢ − ȳ)`. -/
def sCentered (xs ys : List Rat) : Rat :=
  (List.zipWith (fun a b => (a - meanL xs) * (b - meanL ys)) xs ys).sum

/-- Textbook Pearson correlation, written from the specification words:
mean-centered cross products over the product of root centered square
sums; undefined on an empty column or a zero-variance column. -/
noncomputable def pearsonSpec (xs ys : List Rat) : Option ℝ :=
  if xs.length = 0 then none
  else if sCentered xs xs = 0 ∨ sCentered ys ys = 0 then none
  else some ((sCentered xs ys : ℝ) /
    (Real.sqrt (sCentered xs xs) * Real.sqrt (sCentered ys ys)))

/-- `df[sel].corr()`: the matrix of pairwise Pearson correlations of the
selected columns. -/
noncomputable def corrMatrix (t : Table) (sel : List ColName) : List (List (Option ℝ)) :=
  sel.map (fun a => sel.map (fun b => pearson (colVals t a) (colVals t b)))

/-- Section 2.1: `corr_matrix = df[nutrition + performance].corr()`. -/
noncomputable def corr_matrix (t : Table) : List (List (Option ℝ)) :=
  corrMatrix t (variables_nutrition ++ variables_performance)

/-- Section 4.1: `matrix = df[symptomes + performance].corr()`. -/
noncomputable def matrix41 (t : Table) : List (List (Option ℝ)) :=
  corrMatrix t (variables_symptomes ++ variables_performance)

/-- One rendered chart, identified by section and group key. -/
inductive Chart where
  | rawData (rows : List Row)
  | bar (counts : List (String × List (String × Nat)))
  | heatGlobalNutriPerf
  | heatPhaseNutriPerf (p : String)
  | heatJPNutriPerf (j p : String)
  | line (j v : String)
  | heatGlobalSymptPerf
  | heatPhaseSymptPerf (p : String)
  | heatJPSymptPerf (j p : String)
deriving DecidableEq, Repr

/-- The sidebar / selectbox widget state. -/
structure Selections where
  showRaw : Bool
  selJoueuse : String
  selVariable : String
deriving DecidableEq, Repr

/-- The charts rendered by the six report sections, in script order,
given the validated dataframe and the widget state. -/
def renderCharts (df : Table) (sel : Selections) : List Chart :=
  (if sel.showRaw then [Chart.rawData df.rows] else []) ++
  [Chart.bar (phases_par_joueuse df), Chart.heatGlobalNutriPerf] ++
  (phase_figures df).map Chart.heatPhaseNutriPerf ++
  (fig_list df).map (fun q => Chart.heatJPNutriPerf q.1 q.2) ++
  (if sel.selJoueuse ≠ "" ∧ sel.selVariable ≠ "" then
    [Chart.line sel.selJoueuse sel.selVariable] else []) ++
  [Chart.heatGlobalSymptPerf] ++
  (figs42 df).map Chart.heatPhaseSymptPerf ++
  (figs43 df).map (fun q => Chart.heatJPSymptPerf q.1 q.2)

/-- The whole script: `df = load_data()` then the render sections.  Any
`st.stop` path halts before any chart is rendered. -/
def script (input : FileInput) (sel : Selections) : Except LoadError (List Chart) :=
  (load_data input).map (fun df => renderCharts df sel)

def dataFileName : String := "Jeu_Donnees_Cycle_Performance.xlsx"

/-- The process environment: what reading each file name yields. -/
abbrev FileSystem := String → FileInput

/-- `pd.read_excel(name)`. -/
def read_excel (fs : FileSystem) (name : String) : FileInput := fs name

/-- One run of the script against a file system: it reads exactly one
file, renders charts, and returns the file system unchanged (the script
writes no file and keeps no durable state). -/
def runScript (fs : FileSystem) (sel : Selections) :
    Except LoadError (List Chart) × FileSystem :=
  (script (read_excel fs dataFileName) sel, fs)

/-- A concrete row of the dataset, with every required column present. -/
def mkRow (j : String) (d : Option Int) (p : String)
    (fer hyd spr dist prec hum cra fat : Rat) : Row :=
  [("Joueuse", .str j), ("Date", .date d), ("Phase_Cycle", .str p),
   ("Fer_mg", .num fer), ("Hydratation_L", .num hyd), ("Sprints", .num spr),
   ("Distance_km", .num dist), ("Precision_Passes", .num prec),
   ("Humeur", .num hum), ("Crampes", .num cra), ("Fatigue", .num fat)]

/-- A concrete well-formed input spreadsheet used to instantiate theorems. -/
def sampleTable : Table :=
  { cols := "Date" :: required_columns,
    rows := [mkRow "B" (some 5) "Folliculaire" 1 2 3 4 5 6 7 8,
             mkRow "A" (some 3) "Menstruelle" 2 3 4 5 6 7 8 9,
             mkRow "A" (some 1) "Menstruelle" 3 4 5 6 7 8 9 10,
             mkRow "A" none "Ovulation" 1 1 1 1 1 1 1 1] }

/- ### Behavioural lemmas about `load_data` -/

/-- `load_data` on a readable table, with the column-preservation of the
three row transformations folded in. -/
lemma load_data_table_eq (t : Table) :
    load_data (.table t) =
      (if "Date" ∈ t.cols then
        if "Joueuse" ∈ t.cols then
          match required_columns.find? (fun c => !(t.cols.contains c)) with
          | some c => .error (.missingColumn c)
          | none => .ok (sortRows (dropnaDate (parseDates t)))
        else .error .exception
      else .error (.missingColumn "Date")) := rfl

lemma find?_missing_eq_none_iff (t : Table) :
    required_columns.find? (fun c => !(t.cols.contains c)) = none ↔
      ∀ c ∈ required_columns, c ∈ t.cols := by
  rw [List.find?_eq_none]
  constructor
  · intro h c hc
    have := h c hc
    simpa using this
  · intro h c hc
    simpa using h c hc

/-- C1: `load_data` returns a dataframe exactly when the spreadsheet is
readable and contains the Date column and every required column
(Joueuse, Phase_Cycle, Fer_mg, Hydratation_L, Sprints, Distance_km,
Precision_Passes, Humeur, Crampes, Fatigue); in every other case
(missing file, unreadable file, missing column) it reports an error and
halts without returning a dataframe. -/
theorem claim_C1_load_validation (input : FileInput) :
    ((∃ df, load_data input = .ok df) ↔
      ∃ t, input = .table t ∧ "Date" ∈ t.cols ∧ ∀ c ∈ required_columns, c ∈ t.cols) ∧
    ((∀ df, load_data input ≠ .ok df) → ∃ e, load_data input = .error e) := by
  constructor
  · constructor
    · rintro ⟨df, hdf⟩
      cases input with
      | missing => simp [load_data] at hdf
      | corrupt => simp [load_data] at hdf
      | table t =>
        rw [load_data_table_eq] at hdf
        by_cases hD : "Date" ∈ t.cols
        · rw [if_pos hD] at hdf
          by_cases hJ : "Joueuse" ∈ t.cols
          · rw [if_pos hJ] at hdf
            cases hf : required_columns.find? (fun c => !(t.cols.contains c)) with
            | some c => rw [hf] at hdf; simp at hdf
            | none => exact ⟨t, rfl, hD, (find?_missing_eq_none_iff t).1 hf⟩
          · rw [if_neg hJ] at hdf; simp at hdf
        · rw [if_neg hD] at hdf; simp at hdf
    · rintro ⟨t, rfl, hD, hall⟩
      have hJ : "Joueuse" ∈ t.cols := hall "Joueuse" (by simp [required_columns])
      refine ⟨sortRows (dropnaDate (parseDates t)), ?_⟩
      rw [load_data_table_eq, if_pos hD, if_pos hJ, (find?_missing_eq_none_iff t).2 hall]
  · intro hne
    cases h : load_data input with
    | ok df => exact absurd h (hne df)
    | error e => exact ⟨e, rfl⟩

/-- The dataframe `load_data` returns is the parsed, cleaned, sorted table. -/
lemma load_data_ok_eq {t df : Table} (h : load_data (.table t) = .ok df) :
    df = sortRows (dropnaDate (parseDates t)) := by
  rw [load_data_table_eq] at h
  by_cases hD : "Date" ∈ t.cols
  · rw [if_pos hD] at h
    by_cases hJ : "Joueuse" ∈ t.cols
    · rw [if_pos hJ] at h
      cases hf : required_columns.find? (fun c => !(t.cols.contains c)) with
      | some c => rw [hf] at h; simp at h
      | none =>
        rw [hf] at h
        simp only [Except.ok.injEq] at h
        exact h.symm
    · rw [if_neg hJ] at h; simp at h
  · rw [if_neg hD] at h; simp at h

/-- Datetime coercion commutes with reading the Date value of a row. -/
lemma dateVal_parseRow (r : Row) : dateVal (parseRow r) = dateVal r := by
  induction r with
  | nil => rfl
  | cons p r ih =>
    obtain ⟨k, v⟩ := p
    by_cases hk : k = "Date"
    · subst hk
      simp [dateVal, parseRow, List.lookup, coerceDate]
    · have hne : ("Date" == k) = false := by
        simp [Ne.symm hk]
      simp only [dateVal, parseRow, List.map_cons] at ih ⊢
      rw [if_neg hk]
      simp only [List.lookup, hne]
      exact ih

instance : IsTotal Row RowLe :=
  ⟨fun a b => by
    unfold RowLe
    simp only [strLt_iff]
    rcases lt_trichotomy (joueuseKey a) (joueuseKey b) with h | h | h
    · exact Or.inl (Or.inl h)
    · rcases le_total (dateKey a) (dateKey b) with hd | hd
      · exact Or.inl (Or.inr ⟨h, hd⟩)
      · exact Or.inr (Or.inr ⟨h.symm, hd⟩)
    · exact Or.inr (Or.inl h)⟩

instance : IsTrans Row RowLe :=
  ⟨fun a b c hab hbc => by
    unfold RowLe at *
    simp only [strLt_iff] at *
    rcases hab with h1 | ⟨e1, d1⟩ <;> rcases hbc with h2 | ⟨e2, d2⟩
    · exact Or.inl (h1.trans h2)
    · exact Or.inl (lt_of_lt_of_eq h1 e2)
    · exact Or.inl (lt_of_eq_of_lt e1 h2)
    · exact Or.inr ⟨e1.trans e2, d1.trans d2⟩⟩

/-- C2: rows with unparseable Date are dropped: every row of the
dataframe returned by `load_data` has a parsed (non-null) Date, and the
(datetime-coerced version of) every input row whose Date parses is kept. -/
theorem claim_C2_unparseable_dates_dropped (t df : Table)
    (h : load_data (.table t) = .ok df) :
    (∀ r ∈ df.rows, (dateVal r).isSome) ∧
      (∀ r ∈ t.rows, (dateVal r).isSome → parseRow r ∈ df.rows) := by
  have hdf := load_data_ok_eq h
  subst hdf
  have hperm : (sortRows (dropnaDate (parseDates t))).rows.Perm
      (dropnaDate (parseDates t)).rows := List.perm_insertionSort _ _
  constructor
  · intro r hr
    have hr2 := hperm.mem_iff.mp hr
    have := List.of_mem_filter hr2
    simpa using this
  · intro r hr hsome
    have h1 : parseRow r ∈ (parseDates t).rows := List.mem_map_of_mem _ hr
    have h2 : parseRow r ∈ (dropnaDate (parseDates t)).rows := by
      refine List.mem_filter.mpr ⟨h1, ?_⟩
      rw [dateVal_parseRow]
      exact hsome
    exact hperm.mem_iff.mpr h2

/-- The cleaned, sorted sample dataframe. -/
def dfSample : Table := sortRows (dropnaDate (parseDates sampleTable))

/-- C2 witness: the sample spreadsheet loads, and its second raw row
(whose Date parses) is kept. -/
theorem claim_C2_witness :
    load_data (.table sampleTable) = .ok dfSample ∧
      parseRow (mkRow "A" (some 3) "Menstruelle" 2 3 4 5 6 7 8 9) ∈ dfSample.rows := by
  refine ⟨rfl, ?_⟩
  exact (claim_C2_unparseable_dates_dropped sampleTable dfSample rfl).2 _
    (by decide) (by decide)

/-- C3: the returned dataframe is sorted by player then date: for every
pair of consecutive rows, the first Joueuse precedes or equals the
second, and when the Joueuse values are equal the first Date is less
than or equal to the second. -/
theorem claim_C3_sorted_by_player_then_date (t df : Table)
    (h : load_data (.table t) = .ok df) :
    List.Chain'
      (fun a b => joueuseKey a ≤ joueuseKey b ∧
        (joueuseKey a = joueuseKey b → dateKey a ≤ dateKey b)) df.rows := by
  have hdf := load_data_ok_eq h
  subst hdf
  have hs : List.Sorted RowLe (sortRows (dropnaDate (parseDates t))).rows :=
    List.sorted_insertionSort RowLe _
  have himp : ∀ {a b : Row}, RowLe a b →
      joueuseKey a ≤ joueuseKey b ∧
        (joueuseKey a = joueuseKey b → dateKey a ≤ dateKey b) := by
    intro a b hab
    rcases hab with h1 | ⟨e, d⟩
    · have h1' := (strLt_iff _ _).mp h1
      exact ⟨le_of_lt h1', fun he => absurd he (ne_of_lt h1')⟩
    · exact ⟨le_of_eq e, fun _ => d⟩
  exact (hs.imp himp).chain'

/-- C3 witness: the loaded sample dataframe is consecutive-row sorted. -/
theorem claim_C3_witness :
    load_data (.table sampleTable) = .ok dfSample ∧
      List.Chain'
        (fun a b => joueuseKey a ≤ joueuseKey b ∧
          (joueuseKey a = joueuseKey b → dateKey a ≤ dateKey b)) dfSample.rows :=
  ⟨rfl, claim_C3_sorted_by_player_then_date sampleTable dfSample rfl⟩

/-- C1 witness: the sample spreadsheet loads, and a missing file halts
with an error. -/
theorem claim_C1_witness :
    (∃ df, load_data (.table sampleTable) = .ok df) ∧
      (∃ e, load_data .missing = .error e) := by
  constructor
  · exact (claim_C1_load_validation (.table sampleTable)).1.2
      ⟨sampleTable, rfl, by decide, by decide⟩
  · exact (claim_C1_load_validation .missing).2
      (fun df h => by simp [load_data] at h)

/-- C4: the script is the linear pipeline load → validate → render: on
any load or validation failure it halts with that error and renders no
chart of any section; charts are rendered exactly when `load_data`
returned a validated dataframe, and they are computed from it. -/
theorem claim_C4_linear_pipeline (input : FileInput) (sel : Selections) :
    (∀ e, load_data input = .error e → script input sel = .error e) ∧
      (∀ df, load_data input = .ok df →
        script input sel = .ok (renderCharts df sel)) ∧
      (∀ charts, script input sel = .ok charts →
        ∃ df, load_data input = .ok df ∧ charts = renderCharts df sel) := by
  refine ⟨?_, ?_, ?_⟩
  · intro e he
    simp [script, he, Except.map]
  · intro df hdf
    simp [script, hdf, Except.map]
  · intro charts hc
    cases h : load_data input with
    | error e => simp [script, h, Except.map] at hc
    | ok df =>
      simp [script, h, Except.map] at hc
      exact ⟨df, rfl, hc.symm⟩

/-- C4 witness: a missing file halts the sample run with no charts, and
the sample spreadsheet run renders the charts of its dataframe. -/
theorem claim_C4_witness :
    script .missing ⟨false, "", ""⟩ = .error .fileNotFound ∧
      script (.table sampleTable) ⟨false, "", ""⟩ =
        .ok (renderCharts dfSample ⟨false, "", ""⟩) := by
  constructor
  · exact (claim_C4_linear_pipeline .missing ⟨false, "", ""⟩).1 .fileNotFound rfl
  · exact (claim_C4_linear_pipeline (.table sampleTable) ⟨false, "", ""⟩).2.1 dfSample rfl

/-- C7: one run of the script leaves the file system unchanged (no write,
no other durable state), and its rendered output depends only on the one
input spreadsheet `Jeu_Donnees_Cycle_Performance.xlsx`. -/
theorem claim_C7_no_durable_state (fs : FileSystem) (sel : Selections) :
    (runScript fs sel).2 = fs ∧
      (∀ fs2 : FileSystem, fs dataFileName = fs2 dataFileName →
        (runScript fs sel).1 = (runScript fs2 sel).1) := by
  refine ⟨rfl, ?_⟩
  intro fs2 hread
  simp [runScript, script, read_excel, hread]

/-- C7 witness: a concrete run returns its file system unchanged, and two
file systems agreeing on the spreadsheet produce the same output. -/
theorem claim_C7_witness :
    (runScript (fun _ => FileInput.missing) ⟨false, "", ""⟩).2 =
        (fun _ => FileInput.missing) ∧
      (runScript (fun _ => FileInput.missing) ⟨false, "", ""⟩).1 =
        (runScript (fun n => if n = dataFileName then FileInput.missing
          else FileInput.corrupt) ⟨false, "", ""⟩).1 := by
  refine ⟨(claim_C7_no_durable_state _ _).1, ?_⟩
  exact (claim_C7_no_durable_state (fun _ => FileInput.missing) ⟨false, "", ""⟩).2
    (fun n => if n = dataFileName then FileInput.missing else FileInput.corrupt)
    (by simp)

/- ### Grid layout (section: display_figures_in_columns) -/

lemma display_figures_nil {α : Type} (c : Nat) (hc : 1 ≤ c) :
    display_figures_in_columns ([] : List α) c = [] := by
  unfold display_figures_in_columns
  have h0 : (([] : List α).length + c - 1) / c = 0 :=
    Nat.div_eq_of_lt (by simp only [List.length_nil]; omega)
  rw [h0]
  rfl

lemma range'_shift_map {α : Type} (figs : List α) (c : Nat) :
    ∀ (k s : Nat),
      (List.range' (s + c) k c).map (fun i => (figs.drop i).take c) =
        (List.range' s k c).map (fun i => ((figs.drop c).drop i).take c) := by
  intro k
  induction k with
  | zero => intro s; rfl
  | succ k ih =>
    intro s
    simp only [List.range'_succ, List.map_cons]
    congr 1
    · simp [List.drop_drop, Nat.add_comm]
    · exact ih (s + c)

lemma display_figures_cons_chunk {α : Type} (figs : List α) (c : Nat)
    (hc : 1 ≤ c) (hne : figs ≠ []) :
    display_figures_in_columns figs c =
      figs.take c :: display_figures_in_columns (figs.drop c) c := by
  have hn : 1 ≤ figs.length := List.length_pos.mpr hne
  have hk : (figs.length + c - 1) / c = (figs.length - 1) / c + 1 := by
    have h : figs.length + c - 1 = (figs.length - 1) + c := by omega
    rw [h, Nat.add_div_right _ (by omega)]
  have hk2 : ((figs.drop c).length + c - 1) / c = (figs.length - 1) / c := by
    rw [List.length_drop]
    by_cases hle : figs.length ≤ c
    · have h1 : figs.length - c = 0 := by omega
      rw [h1]
      have h2 : (0 + c - 1) / c = 0 := Nat.div_eq_of_lt (by omega)
      have h3 : (figs.length - 1) / c = 0 := Nat.div_eq_of_lt (by omega)
      rw [h2, h3]
    · have h1 : figs.length - c + c - 1 = figs.length - 1 := by omega
      rw [h1]
  unfold display_figures_in_columns
  rw [hk, hk2, List.range'_succ, List.map_cons, List.drop_zero]
  congr 1
  exact range'_shift_map figs c ((figs.length - 1) / c) 0

lemma display_figures_join_aux {α : Type} (c : Nat) (hc : 1 ≤ c) :
    ∀ (n : Nat) (figs : List α), figs.length ≤ n →
      (display_figures_in_columns figs c).flatten = figs := by
  intro n
  induction n with
  | zero =>
    intro figs hle
    have h : figs = [] := List.eq_nil_of_length_eq_zero (Nat.le_zero.mp hle)
    subst h
    rw [display_figures_nil c hc]
    rfl
  | succ n ih =>
    intro figs hle
    by_cases h : figs = []
    · subst h
      rw [display_figures_nil c hc]
      rfl
    · rw [display_figures_cons_chunk figs c hc h, List.flatten_cons,
        ih (figs.drop c) (by rw [List.length_drop]; omega)]
      exact List.take_append_drop c figs

/-- C6: `display_figures_in_columns` arranges charts into a grid: for any
figure list and any `cols_per_row ≥ 1`, the grid rows concatenate back to
the figure list (each figure rendered exactly once, in order), each grid
row holds at most `cols_per_row` figures, the number of grid rows is the
ceiling of the figure count over `cols_per_row`, and an empty list
renders nothing. -/
theorem claim_C6_grid_layout {α : Type} (figures : List α) (c : Nat) (hc : 1 ≤ c) :
    (display_figures_in_columns figures c).flatten = figures ∧
      (∀ row ∈ display_figures_in_columns figures c, row.length ≤ c) ∧
      (display_figures_in_columns figures c).length = (figures.length + c - 1) / c ∧
      (figures = [] → display_figures_in_columns figures c = []) := by
  refine ⟨display_figures_join_aux c hc figures.length figures le_rfl, ?_, ?_, ?_⟩
  · intro row hrow
    unfold display_figures_in_columns at hrow
    obtain ⟨i, _, hrow⟩ := List.mem_map.mp hrow
    rw [← hrow, List.length_take]
    exact min_le_left _ _
  · unfold display_figures_in_columns
    rw [List.length_map, List.length_range']
  · intro h
    subst h
    exact display_figures_nil c hc

/-- C6 witness: five figures at two per row concatenate back in order. -/
theorem claim_C6_witness :
    (1 : Nat) ≤ 2 ∧
      (display_figures_in_columns [1, 2, 3, 4, 5] 2).flatten = [1, 2, 3, 4, 5] :=
  ⟨by decide, (claim_C6_grid_layout [1, 2, 3, 4, 5] 2 (by decide)).1⟩

/- ### Grouping lemmas -/

lemma mem_uniqueFirst {α : Type} [DecidableEq α] (l : List α) (x : α) :
    x ∈ uniqueFirst l ↔ x ∈ l := by
  induction l with
  | nil => simp [uniqueFirst]
  | cons a l ih =>
    simp only [uniqueFirst, List.mem_cons]
    by_cases hxa : x = a
    · subst hxa; simp
    · simp only [hxa, false_or]
      rw [List.mem_filter, ih]
      simp [hxa]

lemma nodup_uniqueFirst {α : Type} [DecidableEq α] (l : List α) :
    (uniqueFirst l).Nodup := by
  induction l with
  | nil => simp [uniqueFirst]
  | cons a l ih =>
    simp only [uniqueFirst]
    refine List.nodup_cons.mpr ⟨?_, ih.filter _⟩
    intro ha
    have h := List.of_mem_filter ha
    simp at h

lemma countPhase_pos_mem (t : Table) (p : String) (h : 0 < countPhase t p) :
    p ∈ phaseCol t := by
  unfold countPhase at h
  obtain ⟨r, hr⟩ := List.length_pos_iff_exists_mem.mp h
  have h1 := List.mem_filter.mp hr
  exact List.mem_map.mpr ⟨r, h1.1, by simpa using h1.2⟩

lemma countJoueusePhase_pos_mem (t : Table) (j p : String)
    (h : 0 < countJoueusePhase t j p) :
    (j, p) ∈ t.rows.map (fun r => (joueuseKey r, phaseKey r)) := by
  unfold countJoueusePhase at h
  obtain ⟨r, hr⟩ := List.length_pos_iff_exists_mem.mp h
  have h1 := List.mem_filter.mp hr
  have h2 : joueuseKey r = j ∧ phaseKey r = p := by simpa using h1.2
  exact List.mem_map.mpr ⟨r, h1.1, by rw [h2.1, h2.2]⟩

lemma mem_jpPairs (t : Table) (q : String × String) :
    q ∈ jpPairs t ↔ q ∈ t.rows.map (fun r => (joueuseKey r, phaseKey r)) := by
  unfold jpPairs
  rw [(List.perm_insertionSort PairLe _).mem_iff, mem_uniqueFirst]

/-- C8: in every grouped-heatmap section (2.2, 2.3, 4.2, 4.3) a heatmap
figure is produced for a group exactly when the group has at least two
rows; groups with zero or one row contribute no figure. -/
theorem claim_C8_group_heatmap_iff (t : Table) (p : String) (j : String) :
    (p ∈ phase_figures t ↔ 2 ≤ countPhase t p) ∧
      (p ∈ figs42 t ↔ 2 ≤ countPhase t p) ∧
      ((j, p) ∈ fig_list t ↔ 2 ≤ countJoueusePhase t j p) ∧
      ((j, p) ∈ figs43 t ↔ 2 ≤ countJoueusePhase t j p) := by
  have hphase : p ∈ phase_figures t ↔ 2 ≤ countPhase t p := by
    unfold phase_figures
    rw [List.mem_filter, mem_uniqueFirst]
    constructor
    · intro h
      have := h.2
      simp only [decide_eq_true_eq] at this
      omega
    · intro h
      refine ⟨countPhase_pos_mem t p (by omega), ?_⟩
      simp only [decide_eq_true_eq]
      omega
  have hjp : (j, p) ∈ fig_list t ↔ 2 ≤ countJoueusePhase t j p := by
    unfold fig_list
    rw [List.mem_filter, mem_jpPairs]
    constructor
    · intro h
      have := h.2
      simp only [decide_eq_true_eq] at this
      omega
    · intro h
      refine ⟨countJoueusePhase_pos_mem t j p (by omega), ?_⟩
      simp only [decide_eq_true_eq]
      omega
  exact ⟨hphase, hphase, hjp, hjp⟩

/- ### Section 1 counting lemmas -/

lemma sum_map_add {α : Type} (L : List α) (f g : α → Nat) :
    (L.map (fun x => f x + g x)).sum = (L.map f).sum + (L.map g).sum := by
  induction L with
  | nil => rfl
  | cons a L ih =>
    simp only [List.map_cons, List.sum_cons, ih]
    omega

lemma sum_indicator_one {α : Type} [DecidableEq α] (L : List α) (x : α)
    (hm : x ∈ L) (hd : L.Nodup) :
    (L.map (fun p => if x = p then (1 : Nat) else 0)).sum = 1 := by
  induction L with
  | nil => cases hm
  | cons a L ih =>
    rw [List.map_cons, List.sum_cons]
    rcases List.mem_cons.mp hm with h | h
    · subst h
      rw [if_pos rfl]
      have hx : x ∉ L := (List.nodup_cons.mp hd).1
      have hz : (L.map (fun p => if x = p then (1 : Nat) else 0)).sum = 0 := by
        apply List.sum_eq_zero
        intro y hy
        obtain ⟨p, hp, hpy⟩ := List.mem_map.mp hy
        rw [← hpy, if_neg]
        intro he
        exact hx (he ▸ hp)
      rw [hz]
    · have hne : x ≠ a := by
        rintro rfl
        exact (List.nodup_cons.mp hd).1 h
      rw [if_neg hne, ih h (List.nodup_cons.mp hd).2]

lemma sum_count_aux (j : String) (L : List String) (hd : L.Nodup) :
    ∀ (rows : List Row), (∀ r ∈ rows, phaseKey r ∈ L) →
      (L.map (fun p =>
        (rows.filter (fun r => decide (joueuseKey r = j ∧ phaseKey r = p))).length)).sum
        = (rows.filter (fun r => decide (joueuseKey r = j))).length := by
  intro rows
  induction rows with
  | nil =>
    intro _
    simp
  | cons r rows ih =>
    intro hcomp
    have hcr : phaseKey r ∈ L := hcomp r (List.mem_cons_self r rows)
    have hcrest : ∀ x ∈ rows, phaseKey x ∈ L :=
      fun x hx => hcomp x (List.mem_cons_of_mem r hx)
    have hstep : ∀ p : String,
        ((r :: rows).filter (fun x => decide (joueuseKey x = j ∧ phaseKey x = p))).length
          = (if joueuseKey r = j ∧ phaseKey r = p then 1 else 0)
            + (rows.filter (fun x => decide (joueuseKey x = j ∧ phaseKey x = p))).length := by
      intro p
      rw [List.filter_cons]
      by_cases h : joueuseKey r = j ∧ phaseKey r = p
      · simp only [h, decide_eq_true_eq]
        simp [h]
        omega
      · simp [h]
    have hmap :
        L.map (fun p =>
          ((r :: rows).filter (fun x => decide (joueuseKey x = j ∧ phaseKey x = p))).length)
          = L.map (fun p =>
            (if joueuseKey r = j ∧ phaseKey r = p then 1 else 0)
              + (rows.filter (fun x => decide (joueuseKey x = j ∧ phaseKey x = p))).length) :=
      List.map_congr_left (fun p _ => hstep p)
    rw [hmap, sum_map_add, ih hcrest, List.filter_cons]
    by_cases hj : joueuseKey r = j
    · have hind :
          (L.map (fun p => if joueuseKey r = j ∧ phaseKey r = p then (1 : Nat) else 0)).sum
            = 1 := by
        have he : L.map (fun p => if joueuseKey r = j ∧ phaseKey r = p then (1 : Nat) else 0)
            = L.map (fun p => if phaseKey r = p then (1 : Nat) else 0) := by
          apply List.map_congr_left
          intro p _
          by_cases hp : phaseKey r = p
          · simp [hp, hj]
          · simp [hp, hj]
        rw [he]
        exact sum_indicator_one L (phaseKey r) hcr hd
      rw [hind]
      simp [hj]
      omega
    · have hind :
          (L.map (fun p => if joueuseKey r = j ∧ phaseKey r = p then (1 : Nat) else 0)).sum
            = 0 := by
        apply List.sum_eq_zero
        intro y hy
        obtain ⟨p, _, hpy⟩ := List.mem_map.mp hy
        rw [← hpy, if_neg]
        intro hcon
        exact hj hcon.1
      rw [hind]
      simp [hj]

lemma nodup_phasesSorted (t : Table) : (phasesSorted t).Nodup := by
  unfold phasesSorted
  exact (List.perm_insertionSort _ _).nodup_iff.mpr (nodup_uniqueFirst _)

lemma phaseKey_mem_phasesSorted (t : Table) (r : Row) (hr : r ∈ t.rows) :
    phaseKey r ∈ phasesSorted t := by
  unfold phasesSorted
  rw [(List.perm_insertionSort _ _).mem_iff, mem_uniqueFirst]
  exact List.mem_map.mpr ⟨r, hr, rfl⟩

/-- C9: the table behind the section-1 stacked bar chart assigns to every
(player, phase) entry the exact number of rows with that Joueuse and that
Phase_Cycle, assigns 0 to combinations absent from the data
(fill_value=0), and the per-player bar heights sum to the total of that player
row count. -/
theorem claim_C9_stacked_bar_counts (t : Table) :
    (∀ e ∈ phases_par_joueuse t, ∀ cell ∈ e.2,
        cell.2 = (t.rows.filter
          (fun r => decide (joueuseKey r = e.1 ∧ phaseKey r = cell.1))).length) ∧
      (∀ j p, ¬(∃ r ∈ t.rows, joueuseKey r = j ∧ phaseKey r = p) →
        countJoueusePhase t j p = 0) ∧
      (∀ e ∈ phases_par_joueuse t,
        (e.2.map (fun cell => cell.2)).sum = countJoueuse t e.1) := by
  refine ⟨?_, ?_, ?_⟩
  · intro e he cell hcell
    obtain ⟨j, _, hej⟩ := List.mem_map.mp he
    subst hej
    obtain ⟨p, _, hcp⟩ := List.mem_map.mp hcell
    subst hcp
    rfl
  · intro j p hno
    unfold countJoueusePhase
    rw [List.length_eq_zero, List.filter_eq_nil_iff]
    intro r hr
    simp only [decide_eq_true_eq]
    intro hcon
    exact hno ⟨r, hr, hcon⟩
  · intro e he
    obtain ⟨j, _, hej⟩ := List.mem_map.mp he
    subst hej
    simp only [List.map_map]
    have hcomp := fun r hr => phaseKey_mem_phasesSorted t r hr
    have h := sum_count_aux j (phasesSorted t) (nodup_phasesSorted t) t.rows hcomp
    unfold countJoueuse
    rw [← h]
    rfl

/-- C9 witness: in the sample dataframe, the bar heights of player A sum to
the total row count of A. -/
theorem claim_C9_witness :
    ((("A", [("Folliculaire", 0), ("Menstruelle", 2)]) :
        String × List (String × Nat)) ∈ phases_par_joueuse dfSample) ∧
      (([("Folliculaire", 0), ("Menstruelle", 2)].map
        (fun cell : String × Nat => cell.2)).sum = countJoueuse dfSample "A") := by
  constructor
  · decide
  · exact (claim_C9_stacked_bar_counts dfSample).2.2
      ("A", [("Folliculaire", 0), ("Menstruelle", 2)]) (by decide)

instance : IsTotal Row DateLe := ⟨fun a b => le_total (dateKey a) (dateKey b)⟩

instance : IsTrans Row DateLe := ⟨fun _ _ _ hab hbc => le_trans hab hbc⟩

instance : IsTotal String strLe :=
  ⟨fun a b => by simp only [strLe_iff]; exact le_total a b⟩

instance : IsTrans String strLe :=
  ⟨fun a b c hab hbc => by
    simp only [strLe_iff] at *
    exact le_trans hab hbc⟩

/-- C10: the section-3 player selector offers each distinct Joueuse value
of the dataframe exactly once, in sorted order, and the plotted series
for a selected player is exactly the rows of that player ordered by Date. -/
theorem claim_C10_player_series (t : Table) (j : String) :
    ((joueuses t).Nodup ∧ List.Sorted (· ≤ ·) (joueuses t) ∧
        (j ∈ joueuses t ↔ j ∈ joueuseCol t)) ∧
      ((df_j t j).Perm (t.rows.filter (fun r => decide (joueuseKey r = j))) ∧
        (∀ r ∈ df_j t j, joueuseKey r = j) ∧
        List.Chain' (fun a b => dateKey a ≤ dateKey b) (df_j t j)) := by
  refine ⟨⟨?_, ?_, ?_⟩, ?_, ?_, ?_⟩
  · exact (List.perm_insertionSort _ _).nodup_iff.mpr (nodup_uniqueFirst _)
  · exact (List.sorted_insertionSort strLe _).imp fun h => (strLe_iff _ _).mp h
  · unfold joueuses
    rw [(List.perm_insertionSort _ _).mem_iff, mem_uniqueFirst]
  · exact List.perm_insertionSort _ _
  · intro r hr
    have hm := (List.perm_insertionSort DateLe _).mem_iff.mp hr
    have h := List.of_mem_filter hm
    simpa using h
  · have hs : List.Sorted DateLe (df_j t j) := List.sorted_insertionSort _ _
    exact (hs.imp (fun h => h)).chain'

/-- C10 witness: the sample selector facts and the series of player A. -/
theorem claim_C10_witness :
    (("A" ∈ joueuses dfSample ↔ "A" ∈ joueuseCol dfSample) ∧
        (joueuses dfSample).Nodup) ∧
      List.Chain' (fun a b => dateKey a ≤ dateKey b) (df_j dfSample "A") :=
  ⟨⟨(claim_C10_player_series dfSample "A").1.2.2,
    (claim_C10_player_series dfSample "A").1.1⟩,
   (claim_C10_player_series dfSample "A").2.2.2⟩

/- ### Pearson correlation lemmas -/

lemma zipWith_mul_self (l : List Rat) :
    List.zipWith (· * ·) l l = l.map (fun x => x * x) := by
  induction l with
  | nil => rfl
  | cons a l ih => simp [ih]

lemma sum_map_sq_nonneg (l : List Rat) : 0 ≤ (l.map (fun x => x * x)).sum := by
  induction l with
  | nil => simp
  | cons a l ih =>
    simp only [List.map_cons, List.sum_cons]
    nlinarith [mul_self_nonneg a]

lemma sq_sum_le_length_mul_sum_sq (l : List Rat) :
    l.sum ^ 2 ≤ (l.length : Rat) * (l.map (fun x => x * x)).sum := by
  induction l with
  | nil => simp
  | cons a l ih =>
    by_cases hl : l = []
    · subst hl
      simp
      nlinarith [sq_nonneg a]
    · have hn : (1 : Rat) ≤ l.length := by
        have h := List.length_pos.mpr hl
        exact_mod_cast h
      simp only [List.map_cons, List.sum_cons, List.length_cons]
      push_cast
      have hQ : 0 ≤ (l.map (fun x => x * x)).sum := sum_map_sq_nonneg l
      nlinarith [sq_nonneg ((l.length : Rat) * a - l.sum),
        mul_nonneg (by linarith : (0:Rat) ≤ (l.length : Rat))
          (by nlinarith : (0:Rat) ≤ (l.length : Rat) * (l.map (fun x => x * x)).sum - l.sum ^ 2),
        ih, hQ, hn]

/-- `n·Σx² − (Σx)² ≥ 0`: the scaled variance is nonnegative. -/
lemma varN_nonneg (xs : List Rat) : 0 ≤ varN xs := by
  unfold varN covN dotL
  rw [zipWith_mul_self]
  nlinarith [sq_sum_le_length_mul_sum_sq xs]

lemma covN_comm (xs ys : List Rat) (h : xs.length = ys.length) :
    covN xs ys = covN ys xs := by
  unfold covN dotL
  rw [List.zipWith_comm_of_comm (· * ·) mul_comm xs ys, h]
  ring

lemma pearson_comm (xs ys : List Rat) (h : xs.length = ys.length) :
    pearson xs ys = pearson ys xs := by
  unfold pearson
  have hc : covN xs ys = covN ys xs := covN_comm xs ys h
  by_cases hx : varN xs = 0
  · simp [hx]
  · by_cases hy : varN ys = 0
    · simp [hx, hy]
    · simp only [hx, hy, or_self, or_false, false_or, if_neg, not_false_iff]
      rw [hc, mul_comm]

lemma pearson_self (xs : List Rat) (h : varN xs ≠ 0) :
    pearson xs xs = some 1 := by
  unfold pearson
  rw [if_neg (by simp [h])]
  have hnn : (0 : ℝ) ≤ ((varN xs : Rat) : ℝ) := by
    exact_mod_cast varN_nonneg xs
  have hcv : covN xs xs = varN xs := rfl
  rw [hcv, Real.mul_self_sqrt hnn]
  congr 1
  apply div_self
  exact_mod_cast h

lemma zip_centered_sum (c d : Rat) :
    ∀ (xs ys : List Rat), xs.length = ys.length →
      (List.zipWith (fun a b => (a - c) * (b - d)) xs ys).sum
        = dotL xs ys - c * ys.sum - d * xs.sum + (xs.length : Rat) * (c * d) := by
  intro xs
  induction xs with
  | nil =>
    intro ys h
    cases ys with
    | nil => simp [dotL]
    | cons y ys => simp at h
  | cons x xs ih =>
    intro ys h
    cases ys with
    | nil => simp at h
    | cons y ys =>
      have h2 : xs.length = ys.length := by simpa using h
      have hrec := ih ys h2
      unfold dotL at hrec ⊢
      simp only [List.zipWith_cons_cons, List.sum_cons, List.length_cons]
      rw [hrec]
      push_cast
      ring

lemma sCentered_eq (xs ys : List Rat) (h : xs.length = ys.length)
    (hn : xs.length ≠ 0) :
    sCentered xs ys = covN xs ys / xs.length := by
  have hnq : ((xs.length : Rat)) ≠ 0 := by exact_mod_cast hn
  unfold sCentered meanL
  rw [zip_centered_sum _ _ xs ys h]
  unfold covN
  rw [← h]
  field_simp
  ring

lemma div_sqrt_scale (c : ℝ) {v w n : ℝ} (hv : 0 ≤ v) (hw : 0 ≤ w) (hn : 0 < n) :
    (c / n) / (Real.sqrt (v / n) * Real.sqrt (w / n))
      = c / (Real.sqrt v * Real.sqrt w) := by
  rw [Real.sqrt_div hv, Real.sqrt_div hw, div_mul_div_comm,
    Real.mul_self_sqrt hn.le, div_div_eq_mul_div,
    div_mul_cancel₀ _ (ne_of_gt hn)]

/-- The pandas Pearson kernel formula agrees with the textbook
mean-centered Pearson formula on equal-length columns. -/
lemma pearson_eq_pearsonSpec (xs ys : List Rat) (h : xs.length = ys.length) :
    pearson xs ys = pearsonSpec xs ys := by
  by_cases hn : xs.length = 0
  · have hylen : ys.length = 0 := by omega
    have hxs : xs = [] := List.eq_nil_of_length_eq_zero hn
    have hys : ys = [] := List.eq_nil_of_length_eq_zero hylen
    subst hxs
    subst hys
    unfold pearson pearsonSpec varN covN dotL
    simp
  · have hnq : ((xs.length : Rat)) ≠ 0 := by exact_mod_cast hn
    have hcx : sCentered xs xs = varN xs / xs.length := sCentered_eq xs xs rfl hn
    have hcy0 : sCentered ys ys = varN ys / ys.length :=
      sCentered_eq ys ys rfl (by omega)
    have hcy : sCentered ys ys = varN ys / xs.length := by rw [hcy0, h]
    have hcxy : sCentered xs ys = covN xs ys / xs.length := sCentered_eq xs ys h hn
    have hx0 : sCentered xs xs = 0 ↔ varN xs = 0 := by
      rw [hcx, div_eq_zero_iff]
      simp [hnq]
    have hy0 : sCentered ys ys = 0 ↔ varN ys = 0 := by
      rw [hcy, div_eq_zero_iff]
      simp [hnq]
    unfold pearson pearsonSpec
    rw [if_neg hn]
    by_cases hvx : varN xs = 0
    · rw [if_pos (Or.inl hvx), if_pos (Or.inl (hx0.mpr hvx))]
    · by_cases hvy : varN ys = 0
      · rw [if_pos (Or.inr hvy), if_pos (Or.inr (hy0.mpr hvy))]
      · rw [if_neg (by simp [hvx, hvy]), if_neg (by simp [hx0, hy0, hvx, hvy])]
        congr 1
        rw [hcx, hcy, hcxy]
        have hvxp : (0 : ℝ) < ((varN xs : Rat) : ℝ) := by
          have h1 : (0 : ℝ) ≤ ((varN xs : Rat) : ℝ) := by
            exact_mod_cast varN_nonneg xs
          have h2 : ((varN xs : Rat) : ℝ) ≠ 0 := by exact_mod_cast hvx
          exact lt_of_le_of_ne h1 (Ne.symm h2)
        have hvyp : (0 : ℝ) < ((varN ys : Rat) : ℝ) := by
          have h1 : (0 : ℝ) ≤ ((varN ys : Rat) : ℝ) := by
            exact_mod_cast varN_nonneg ys
          have h2 : ((varN ys : Rat) : ℝ) ≠ 0 := by exact_mod_cast hvy
          exact lt_of_le_of_ne h1 (Ne.symm h2)
        have hnp : (0 : ℝ) < ((xs.length : Rat) : ℝ) := by
          have h1 : 0 < xs.length := Nat.pos_of_ne_zero hn
          exact_mod_cast h1
        push_cast
        exact (div_sqrt_scale _ (by exact_mod_cast (varN_nonneg xs))
          (by exact_mod_cast (varN_nonneg ys)) (by exact_mod_cast hnp)).symm

/-- Entry (i, j) of a matrix given as a list of rows. -/
def matEntry (m : List (List (Option ℝ))) (i j : Nat) : Option ℝ :=
  (m.getD i []).getD j none

lemma colVals_length (t : Table) (c : ColName) :
    (colVals t c).length = t.rows.length := by
  simp [colVals]

lemma corrMatrix_entry (t : Table) (sel : List ColName) (i j : Nat)
    (hi : i < sel.length) (hj : j < sel.length) :
    matEntry (corrMatrix t sel) i j
      = pearson (colVals t (sel.getD i "")) (colVals t (sel.getD j "")) := by
  unfold matEntry corrMatrix
  rw [List.getD_eq_getElem
      (sel.map (fun a => sel.map (fun b => pearson (colVals t a) (colVals t b))))
      [] (by simpa using hi)]
  rw [List.getElem_map]
  rw [List.getD_eq_getElem _ none (by simpa using hj)]
  rw [List.getElem_map]
  rw [List.getD_eq_getElem sel "" hi, List.getD_eq_getElem sel "" hj]

/-- C5 (amended): every displayed correlation matrix (section 2.1
`corr_matrix`, section 4.1 `matrix41`, and the per-group variants, all
instances of `corrMatrix`) holds at (i, j) the Pearson correlation of the
i-th and j-th selected columns over the rows considered — the pandas
kernel formula agreeing with the textbook mean-centered formula — and is
symmetric; a diagonal entry is 1 whenever its column has nonzero variance
over those rows (for a constant column it is NaN, not 1). -/
theorem claim_C5_corr_matrix_pearson (t : Table) (sel : List ColName)
    (i j : Nat) (hi : i < sel.length) (hj : j < sel.length) :
    matEntry (corrMatrix t sel) i j
        = pearson (colVals t (sel.getD i "")) (colVals t (sel.getD j "")) ∧
      pearson (colVals t (sel.getD i "")) (colVals t (sel.getD j ""))
        = pearsonSpec (colVals t (sel.getD i "")) (colVals t (sel.getD j "")) ∧
      matEntry (corrMatrix t sel) i j = matEntry (corrMatrix t sel) j i ∧
      (varN (colVals t (sel.getD i "")) ≠ 0 →
        matEntry (corrMatrix t sel) i i = some 1) ∧
      corr_matrix t = corrMatrix t (variables_nutrition ++ variables_performance) ∧
      matrix41 t = corrMatrix t (variables_symptomes ++ variables_performance) := by
  refine ⟨corrMatrix_entry t sel i j hi hj, ?_, ?_, ?_, rfl, rfl⟩
  · exact pearson_eq_pearsonSpec _ _ (by rw [colVals_length, colVals_length])
  · rw [corrMatrix_entry t sel i j hi hj, corrMatrix_entry t sel j i hj hi]
    exact pearson_comm _ _ (by rw [colVals_length, colVals_length])
  · intro hv
    rw [corrMatrix_entry t sel i i hi hi]
    exact pearson_self _ hv

/-- A readable spreadsheet whose Fer_mg column is constant. -/
def tCounter : Table :=
  { cols := "Date" :: required_columns,
    rows := [mkRow "A" (some 1) "Menstruelle" 1 2 3 4 5 6 7 8,
             mkRow "A" (some 2) "Menstruelle" 1 3 4 5 6 7 8 9] }

/-- The loaded dataframe of `tCounter`. -/
def dfCounter : Table := sortRows (dropnaDate (parseDates tCounter))

/-- C5 counterexample: on a loaded dataframe whose Fer_mg column is
constant, the section-2.1 correlation matrix has `none` (NaN) — not 1 —
at the Fer_mg diagonal entry, refuting "ones on the diagonal" as stated. -/
theorem claim_C5_counterexample :
    load_data (.table tCounter) = .ok dfCounter ∧
      matEntry (corr_matrix dfCounter) 0 0 = none ∧
      (none : Option ℝ) ≠ some 1 := by
  refine ⟨rfl, ?_, by simp⟩
  have hcol : colVals dfCounter "Fer_mg" = [1, 1] := by decide
  have h0 : (variables_nutrition ++ variables_performance).getD 0 "" = "Fer_mg" := rfl
  unfold corr_matrix
  rw [corrMatrix_entry _ _ 0 0 (by decide) (by decide), h0, hcol]
  have hv : varN ([1, 1] : List Rat) = 0 := by
    norm_num [varN, covN, dotL]
  unfold pearson
  rw [if_pos (Or.inl hv)]

/-- C5 witness: on the sample dataframe the Fer_mg column varies, and the
section-2.1 matrix has 1 at the Fer_mg diagonal entry. -/
theorem claim_C5_witness :
    (0 < (variables_nutrition ++ variables_performance).length ∧
        varN (colVals dfSample
          ((variables_nutrition ++ variables_performance).getD 0 "")) ≠ 0) ∧
      matEntry (corr_matrix dfSample) 0 0 = some 1 := by
  have hcol : colVals dfSample
      ((variables_nutrition ++ variables_performance).getD 0 "") = [3, 2, 1] := by
    decide
  have hv : varN (colVals dfSample
      ((variables_nutrition ++ variables_performance).getD 0 "")) ≠ 0 := by
    rw [hcol]
    norm_num [varN, covN, dotL]
  refine ⟨⟨by decide, hv⟩, ?_⟩
  exact (claim_C5_corr_matrix_pearson dfSample
    (variables_nutrition ++ variables_performance) 0 0
    (by decide) (by decide)).2.2.2.1 hv
